import Mathlib

/-!
Shallow embedding of the CommunityEventApp backend (Express + Mongoose +
Socket.io). Each definition mirrors one route handler, model hook, or
socket handler from the source; theorems settle the specification claims
about them.

Conventions: Mongo ObjectIds are modelled as `Nat` for REST entities and as
`String` for the realtime chat layer (where ids travel as strings in socket
payloads). JavaScript truthiness of an optional string is modelled
explicitly (`none` and `some ""` are falsy). Fallible handlers return
`Option`/`Except`; an error result leaves the modelled stores untouched,
matching handlers that respond with an error before performing any write.
-/

abbrev UserId := Nat

abbrev EventId := Nat

/-- Event document (models/Event.js): the fields relevant to RSVP and
capacity. `capacity = none` is the schema default null, meaning unlimited;
`attendees` is the denormalized counter mirrored from `attendeesList`. -/
structure Event where
  creator : Option UserId
  capacity : Option Nat
  attendees : Nat
  attendeesList : List UserId
deriving DecidableEq

/-- User document (models/User.js): the event-relationship lists. -/
structure UserDoc where
  eventsAttending : List EventId
  savedEvents : List EventId
deriving DecidableEq

inductive ToggleError where
  | CapacityExceeded
deriving DecidableEq

/-- `event.attendeesList.some((id) => id.toString() === userId.toString())`
in PATCH /api/events/:id/attend. -/
def isAttending (e : Event) (uid : UserId) : Bool :=
  decide (uid ∈ e.attendeesList)

/-- `event.capacity && event.attendeesList.length >= event.capacity`:
a null capacity is falsy, and so is the number 0 (unreachable through the
schema, whose `min` is 1). -/
def atCapacity (e : Event) : Bool :=
  match e.capacity with
  | none => false
  | some c => decide (c ≠ 0) && decide (c ≤ e.attendeesList.length)

/-- Mongo `$addToSet`: append the element only when it is absent. -/
def addToSet (l : List Nat) (x : Nat) : List Nat :=
  if x ∈ l then l else l ++ [x]

/-- Outcome of the attend toggle: the HTTP-level response (error or the new
`attending` flag) together with the stored event and user documents. -/
structure ToggleOut where
  resp : Except ToggleError Bool
  event : Event
  user : UserDoc

/-- PATCH /api/events/:id/attend (routes/eventRoutes.js). If the requester
is already in `attendeesList`, remove every occurrence (`filter`), decrement
the counter with a floor at zero (`Math.max(0, attendees - 1)`, which is
exactly truncated Nat subtraction), and `$pull` the event from the user
document. Otherwise reject when at capacity with no mutation, else push the
requester, increment the counter and `$addToSet` the event on the user. -/
def toggleAttend (e : Event) (u : UserDoc) (eid : EventId) (uid : UserId) : ToggleOut :=
  if isAttending e uid then
    { resp := Except.ok false
      event := { e with
        attendeesList := e.attendeesList.filter (fun i => decide (i ≠ uid))
        attendees := e.attendees - 1 }
      user := { u with
        eventsAttending := u.eventsAttending.filter (fun i => decide (i ≠ eid)) } }
  else if atCapacity e then
    { resp := Except.error ToggleError.CapacityExceeded, event := e, user := u }
  else
    { resp := Except.ok true
      event := { e with
        attendeesList := e.attendeesList ++ [uid]
        attendees := e.attendees + 1 }
      user := { u with eventsAttending := addToSet u.eventsAttending eid } }

/-- `capacity || null` in POST /api/events: a missing or zero capacity is
stored as null. -/
def jsCapacityOrNull (c : Option Nat) : Option Nat :=
  match c with
  | none => none
  | some c => if c = 0 then none else some c

/-- POST /api/events (routes/eventRoutes.js): a new event starts with
`attendees: 0` and the schema-default empty `attendeesList`. -/
def createEvent (creator : UserId) (capacity : Option Nat) : Event :=
  { creator := some creator
    capacity := jsCapacityOrNull capacity
    attendees := 0
    attendeesList := [] }

/-- The 403 guard of PUT /api/events/:id:
`event.creator && event.creator.toString() !== req.user._id.toString()`.
A null creator (legacy row) is falsy, so the guard passes. -/
def notEventOwner (e : Event) (requester : UserId) : Bool :=
  match e.creator with
  | none => false
  | some c => decide (c ≠ requester)

/-- PUT /api/events/:id (routes/eventRoutes.js), restricted to the fields
that interact with the attendee invariant: the spread
`...(attendees !== undefined && { attendees })` writes a caller-supplied
counter, and `...(capacity !== undefined && { capacity })` a capacity.
`attendeesList` is never part of `updateData`. `none` is returned on the
403 path, where nothing is written. -/
def updateEvent (e : Event) (requester : UserId) (newAttendees : Option Nat)
    (newCapacity : Option (Option Nat)) : Option Event :=
  if notEventOwner e requester then none
  else some { e with
    attendees := newAttendees.getD e.attendees
    capacity := newCapacity.getD e.capacity }

/-- The denormalization invariant of the Event document: the counter mirrors
the list length. -/
def eventInv (e : Event) : Prop :=
  e.attendees = e.attendeesList.length

/-- Claim C1: joining an event whose capacity is N while the attendee set
already has N members fails with CapacityExceeded and performs no mutation
on the event or the user; with N - 1 members the same join succeeds and the
attendee set reaches size N. -/
theorem C1_capacity_bound (e : Event) (u : UserDoc) (eid : EventId) (uid : UserId)
    (N : Nat) (hcap : e.capacity = some N) (hN : 1 ≤ N)
    (hnot : uid ∉ e.attendeesList) :
    (e.attendeesList.length = N →
      (toggleAttend e u eid uid).resp = Except.error ToggleError.CapacityExceeded ∧
      (toggleAttend e u eid uid).event = e ∧
      (toggleAttend e u eid uid).user = u) ∧
    (e.attendeesList.length = N - 1 →
      (toggleAttend e u eid uid).resp = Except.ok true ∧
      (toggleAttend e u eid uid).event.attendeesList.length = N) := by
  have hatt : isAttending e uid = false := by
    simp [isAttending, hnot]
  constructor
  · intro hlen
    have hfull : atCapacity e = true := by
      simp [atCapacity, hcap, hlen]
      omega
    simp [toggleAttend, hatt, hfull]
  · intro hlen
    have hfree : atCapacity e = false := by
      simp [atCapacity, hcap, hlen]
      omega
    refine ⟨?_, ?_⟩ <;> simp [toggleAttend, hatt, hfree]
    omega

/-- Concrete witness for C1: an event of capacity 2 with attendees [5, 6]
rejects user 7, and with attendees [5] it accepts user 7 bringing the size
to 2. -/
theorem C1_capacity_bound_witness :
    ((toggleAttend ⟨none, some 2, 2, [5, 6]⟩ ⟨[], []⟩ 3 7).resp =
        Except.error ToggleError.CapacityExceeded ∧
      (toggleAttend ⟨none, some 2, 2, [5, 6]⟩ ⟨[], []⟩ 3 7).event =
        ⟨none, some 2, 2, [5, 6]⟩ ∧
      (toggleAttend ⟨none, some 2, 2, [5, 6]⟩ ⟨[], []⟩ 3 7).user = ⟨[], []⟩) ∧
    ((toggleAttend ⟨none, some 2, 1, [5]⟩ ⟨[], []⟩ 3 7).resp = Except.ok true ∧
      (toggleAttend ⟨none, some 2, 1, [5]⟩ ⟨[], []⟩ 3 7).event.attendeesList.length = 2) :=
  ⟨(C1_capacity_bound ⟨none, some 2, 2, [5, 6]⟩ ⟨[], []⟩ 3 7 2 rfl (by decide)
      (by decide)).1 rfl,
    (C1_capacity_bound ⟨none, some 2, 1, [5]⟩ ⟨[], []⟩ 3 7 2 rfl (by decide)
      (by decide)).2 rfl⟩

/-- On a Nodup list, the source filter `(id) => id.toString() !== userId`
is exactly `List.erase`, so removal drops the length by one when the user
is present. -/
theorem length_filter_ne_of_nodup_mem (l : List Nat) (uid : Nat)
    (hnd : l.Nodup) (hm : uid ∈ l) :
    (l.filter (fun i => decide (i ≠ uid))).length = l.length - 1 := by
  have h : l.filter (fun i => decide (i ≠ uid)) = l.erase uid := by
    rw [List.Nodup.erase_eq_filter hnd]
    refine List.filter_congr ?_
    intro x _
    by_cases hxe : x = uid <;> simp [hxe]
  rw [h, List.length_erase_of_mem hm]

/-- Claim C8: toggling attendance twice for a user who starts as a
non-attendee (not in the attendee set, event not in the attending list)
returns the attendee counter and attendee set to their original values and
leaves the event absent from the attending list. This holds both on the
join-then-leave path and on the at-capacity path where both toggles reject
without mutating. -/
theorem C8_toggle_attend_twice (e : Event) (u : UserDoc) (eid : EventId)
    (uid : UserId) (h1 : uid ∉ e.attendeesList) (h2 : eid ∉ u.eventsAttending) :
    (toggleAttend (toggleAttend e u eid uid).event
        (toggleAttend e u eid uid).user eid uid).event.attendees = e.attendees ∧
    (toggleAttend (toggleAttend e u eid uid).event
        (toggleAttend e u eid uid).user eid uid).event.attendeesList =
      e.attendeesList ∧
    eid ∉ (toggleAttend (toggleAttend e u eid uid).event
        (toggleAttend e u eid uid).user eid uid).user.eventsAttending := by
  have hatt : isAttending e uid = false := by
    simp [isAttending, h1]
  have hfl : e.attendeesList.filter (fun i => !decide (i = uid)) = e.attendeesList := by
    refine List.filter_eq_self.mpr ?_
    intro a ha
    simp only [Bool.not_eq_true', decide_eq_false_iff_not]
    exact fun heq => h1 (heq ▸ ha)
  by_cases hcap : atCapacity e = true
  · simp [toggleAttend, hatt, hcap, h2]
  · rw [Bool.not_eq_true] at hcap
    have hadd : addToSet u.eventsAttending eid = u.eventsAttending ++ [eid] := by
      simp [addToSet, h2]
    have ht1 : toggleAttend e u eid uid =
        { resp := Except.ok true
          event := { e with attendeesList := e.attendeesList ++ [uid]
                            attendees := e.attendees + 1 }
          user := { u with eventsAttending := u.eventsAttending ++ [eid] } } := by
      simp [toggleAttend, hatt, hcap, hadd]
    rw [ht1]
    have hatt2 : isAttending
        { e with attendeesList := e.attendeesList ++ [uid]
                 attendees := e.attendees + 1 } uid = true := by
      simp [isAttending]
    refine ⟨?_, ?_, ?_⟩
    · simp [toggleAttend, hatt2]
    · simp [toggleAttend, hatt2, List.filter_append, hfl]
    · simp [toggleAttend, hatt2, List.mem_filter]

/-- Concrete witness for C8: user 7 toggles twice on an event with attendee
list [5]; counter and list return to their originals and the event is not in
the attending list. -/
theorem C8_toggle_attend_twice_witness :
    (toggleAttend (toggleAttend ⟨none, none, 1, [5]⟩ ⟨[], []⟩ 3 7).event
        (toggleAttend ⟨none, none, 1, [5]⟩ ⟨[], []⟩ 3 7).user 3 7).event.attendees = 1 ∧
    (toggleAttend (toggleAttend ⟨none, none, 1, [5]⟩ ⟨[], []⟩ 3 7).event
        (toggleAttend ⟨none, none, 1, [5]⟩ ⟨[], []⟩ 3 7).user 3 7).event.attendeesList = [5] ∧
    3 ∉ (toggleAttend (toggleAttend ⟨none, none, 1, [5]⟩ ⟨[], []⟩ 3 7).event
        (toggleAttend ⟨none, none, 1, [5]⟩ ⟨[], []⟩ 3 7).user 3 7).user.eventsAttending :=
  C8_toggle_attend_twice ⟨none, none, 1, [5]⟩ ⟨[], []⟩ 3 7 (by decide) (by decide)

/-- Claim C2 counterexample: the event-update route does not preserve the
counter-mirrors-list invariant. A legacy event (null creator, so the 403
guard passes for any requester) with an empty attendee list and counter 0
satisfies the invariant; an update request carrying `attendees: 5` is
accepted and stores counter 5 against an empty list. -/
theorem C2_update_breaks_invariant :
    eventInv ⟨none, none, 0, []⟩ ∧
    updateEvent ⟨none, none, 0, []⟩ 1 (some 5) none = some ⟨none, none, 5, []⟩ ∧
    ¬ eventInv ⟨none, none, 5, []⟩ := by
  refine ⟨rfl, rfl, ?_⟩
  intro h
  simp [eventInv] at h

/-- Claim C2 (amended): event creation establishes the invariant that the
attendee counter equals the attendee-list length, and the attendance toggle
preserves it on every path (for duplicate-free attendee lists, which is
what creation and the toggle itself produce). The event-update route is
excluded: it writes a caller-supplied counter without touching the list. -/
theorem C2_amended_counter_invariant (creator : UserId) (capacity : Option Nat)
    (e : Event) (u : UserDoc) (eid : EventId) (uid : UserId) :
    eventInv (createEvent creator capacity) ∧
    (eventInv e → e.attendeesList.Nodup →
      eventInv (toggleAttend e u eid uid).event) := by
  constructor
  · rfl
  · intro hinv hnd
    by_cases hatt : isAttending e uid = true
    · have hmem : uid ∈ e.attendeesList := by
        simpa [isAttending] using hatt
      have hlen := length_filter_ne_of_nodup_mem e.attendeesList uid hnd hmem
      have hpos : 1 ≤ e.attendeesList.length := List.length_pos.mpr
        (List.ne_nil_of_mem hmem)
      simp only [toggleAttend, hatt, if_true]
      unfold eventInv at hinv ⊢
      simp only [hlen]
      omega
    · rw [Bool.not_eq_true] at hatt
      by_cases hcap : atCapacity e = true
      · simpa [toggleAttend, hatt, hcap] using hinv
      · rw [Bool.not_eq_true] at hcap
        unfold eventInv at hinv ⊢
        simp [toggleAttend, hatt, hcap, hinv]

/-- Concrete witness for the amended C2: a fresh event satisfies the
invariant and a toggle on an event satisfying it keeps it. -/
theorem C2_amended_counter_invariant_witness :
    eventInv (createEvent 1 (some 3)) ∧
    eventInv (toggleAttend ⟨some 1, some 3, 1, [5]⟩ ⟨[], []⟩ 2 7).event :=
  ⟨(C2_amended_counter_invariant 1 (some 3) ⟨some 1, some 3, 1, [5]⟩ ⟨[], []⟩ 2 7).1,
    (C2_amended_counter_invariant 1 (some 3) ⟨some 1, some 3, 1, [5]⟩ ⟨[], []⟩ 2 7).2
      rfl (by decide)⟩

/-- Message document (models/Message.js): sender and receiver ids travel as
strings through the socket payloads; `createdAt` is the timestamps-option
creation time; `read` defaults to false and `readAt` is unset. -/
structure Message where
  id : Nat
  sender : String
  receiver : String
  message : String
  read : Bool
  readAt : Option Nat
  createdAt : Nat
deriving DecidableEq

/-- Payload of the `sendMessage` socket event, each field possibly absent. -/
structure SendPayload where
  sender : Option String
  receiver : Option String
  message : Option String
deriving DecidableEq

/-- JavaScript truthiness of an optional string as tested by
`!sender || !receiver || !message`: absent and empty are both falsy. -/
def jsPresent : Option String → Bool
  | none => false
  | some s => decide (s ≠ "")

inductive ChatError where
  | ValidationError
deriving DecidableEq

/-- `socket.on("sendMessage")` (server.js): reject with a `messageError`
(ValidationError) when sender, receiver or message is missing, persisting
nothing; otherwise persist the new message (unread, no read timestamp)
before any delivery attempt and acknowledge the sender with it. -/
def sendMessage (store : List Message) (p : SendPayload) (newId : Nat)
    (now : Nat) : Except ChatError Message × List Message :=
  if jsPresent p.sender && jsPresent p.receiver && jsPresent p.message then
    let m : Message :=
      { id := newId
        sender := p.sender.getD ""
        receiver := p.receiver.getD ""
        message := p.message.getD ""
        read := false
        readAt := none
        createdAt := now }
    (Except.ok m, store ++ [m])
  else
    (Except.error ChatError.ValidationError, store)

/-- Claim C3: a realtime send in which sender, receiver or message body is
absent fails with ValidationError and leaves the message store unchanged. -/
theorem C3_send_requires_fields (store : List Message) (p : SendPayload)
    (newId now : Nat)
    (h : p.sender = none ∨ p.receiver = none ∨ p.message = none) :
    (sendMessage store p newId now).1 = Except.error ChatError.ValidationError ∧
    (sendMessage store p newId now).2 = store := by
  rcases h with h | h | h <;> simp [sendMessage, jsPresent, h]

/-- Concrete witness for C3: a payload without a sender is rejected and a
one-message store is untouched. -/
theorem C3_send_requires_fields_witness :
    (sendMessage [⟨1, "a", "b", "hi", false, none, 0⟩]
        ⟨none, some "b", some "hello"⟩ 2 5).1 =
      Except.error ChatError.ValidationError ∧
    (sendMessage [⟨1, "a", "b", "hi", false, none, 0⟩]
        ⟨none, some "b", some "hello"⟩ 2 5).2 =
      [⟨1, "a", "b", "hi", false, none, 0⟩] :=
  C3_send_requires_fields [⟨1, "a", "b", "hi", false, none, 0⟩]
    ⟨none, some "b", some "hello"⟩ 2 5 (Or.inl rfl)

/-- `socket.on("markAsRead")` (server.js):
`Message.updateMany({_id: {$in: messageIds}, receiver: userId},
{read: true, readAt: new Date()})`. -/
def markMessagesRead (store : List Message) (ids : List Nat) (reader : String)
    (t : Nat) : List Message :=
  store.map (fun m =>
    if m.id ∈ ids ∧ m.receiver = reader then
      { m with read := true, readAt := some t }
    else m)

/-- Claim C6: markAsRead updates exactly the stored messages whose id is in
the requested set and whose receiver is the reader, setting read and a read
timestamp; every other message survives unchanged, the store keeps its
length, and any message of the updated store not addressed to the reader
already existed unchanged, so a reader can never mark another user's
inbound messages. -/
theorem C6_mark_read_scope (store : List Message) (ids : List Nat)
    (reader : String) (t : Nat) :
    (∀ m, m ∈ store → m.id ∈ ids → m.receiver = reader →
      { m with read := true, readAt := some t } ∈ markMessagesRead store ids reader t) ∧
    (∀ m, m ∈ store → m.id ∉ ids ∨ m.receiver ≠ reader →
      m ∈ markMessagesRead store ids reader t) ∧
    (∀ m, m ∈ markMessagesRead store ids reader t → m.receiver ≠ reader →
      m ∈ store) ∧
    (markMessagesRead store ids reader t).length = store.length := by
  refine ⟨?_, ?_, ?_, ?_⟩
  · intro m hm hid hr
    have : ({ m with read := true, readAt := some t } : Message) =
        (fun m => if m.id ∈ ids ∧ m.receiver = reader then
          { m with read := true, readAt := some t } else m) m := by
      simp [hid, hr]
    rw [this]
    exact List.mem_map_of_mem _ hm
  · intro m hm hcond
    have : m = (fun m => if m.id ∈ ids ∧ m.receiver = reader then
        { m with read := true, readAt := some t } else m) m := by
      rcases hcond with h | h <;> simp [h]
    rw [markMessagesRead]
    exact this ▸ List.mem_map_of_mem _ hm
  · intro m hm hr
    rcases List.mem_map.mp hm with ⟨m0, hm0, hEq⟩
    by_cases hc : m0.id ∈ ids ∧ m0.receiver = reader
    · rw [if_pos hc] at hEq
      have : m.receiver = reader := by
        rw [← hEq]
        exact hc.2
      exact absurd this hr
    · rw [if_neg hc] at hEq
      exact hEq ▸ hm0
  · exact List.length_map store _

/-- Concrete witness for C6: marking message 1 for reader b flips its read
flag, keeps message 2 (other receiver) unchanged, and keeps the length. -/
theorem C6_mark_read_scope_witness :
    (⟨1, "a", "b", "hi", true, some 9, 0⟩ : Message) ∈
      markMessagesRead [⟨1, "a", "b", "hi", false, none, 0⟩,
        ⟨2, "b", "a", "yo", false, none, 1⟩] [1, 2] "b" 9 ∧
    (⟨2, "b", "a", "yo", false, none, 1⟩ : Message) ∈
      markMessagesRead [⟨1, "a", "b", "hi", false, none, 0⟩,
        ⟨2, "b", "a", "yo", false, none, 1⟩] [1, 2] "b" 9 :=
  ⟨(C6_mark_read_scope [⟨1, "a", "b", "hi", false, none, 0⟩,
      ⟨2, "b", "a", "yo", false, none, 1⟩] [1, 2] "b" 9).1
      ⟨1, "a", "b", "hi", false, none, 0⟩ (by decide) (by decide) rfl,
    (C6_mark_read_scope [⟨1, "a", "b", "hi", false, none, 0⟩,
      ⟨2, "b", "a", "yo", false, none, 1⟩] [1, 2] "b" 9).2.1
      ⟨2, "b", "a", "yo", false, none, 1⟩ (by decide) (Or.inr (by decide))⟩

/-- The `$or` query of GET /api/chat/messages/:userId: either direction of
the pair (requester `a`, other party `b`). -/
def inConversation (a b : String) (m : Message) : Bool :=
  (decide (m.sender = a) && decide (m.receiver = b)) ||
    (decide (m.sender = b) && decide (m.receiver = a))

/-- The `sort({createdAt: 1})` order of the history query. -/
def msgLe (m1 m2 : Message) : Prop :=
  m1.createdAt ≤ m2.createdAt

instance : DecidableRel msgLe :=
  fun m1 m2 => Nat.decLe m1.createdAt m2.createdAt

instance : IsTotal Message msgLe :=
  ⟨fun m1 m2 => Nat.le_total m1.createdAt m2.createdAt⟩

instance : IsTrans Message msgLe :=
  ⟨fun _ _ _ h1 h2 => Nat.le_trans h1 h2⟩

/-- GET /api/chat/messages/:userId, query part (routes/chatRoutes.js):
the messages of either direction of the pair, sorted ascending by creation
time. -/
def getHistory (store : List Message) (a b : String) : List Message :=
  List.insertionSort msgLe (store.filter (inConversation a b))

/-- GET /api/chat/messages/:userId, side-effect part:
`Message.updateMany({sender: other, receiver: current, read: false},
{read: true, readAt: new Date()})`. -/
def markHistoryRead (store : List Message) (a b : String) (t : Nat) : List Message :=
  store.map (fun m =>
    if m.sender = b ∧ m.receiver = a ∧ m.read = false then
      { m with read := true, readAt := some t }
    else m)

/-- Claim C5: for requester a and other party b, the history is exactly the
stored messages whose sender/receiver set is the unordered pair, in
ascending creation order, and the side effect marks as read (with a read
timestamp) every stored message addressed to a from b that was still
unread, while every message sent by a (and everything else not matching)
survives unchanged and the store keeps its length. -/
theorem C5_history_and_read (store : List Message) (a b : String) (t : Nat) :
    (∀ m, m ∈ getHistory store a b ↔ m ∈ store ∧
      ((m.sender = a ∧ m.receiver = b) ∨ (m.sender = b ∧ m.receiver = a))) ∧
    List.Sorted msgLe (getHistory store a b) ∧
    (∀ m, m ∈ store → m.sender = b → m.receiver = a → m.read = false →
      { m with read := true, readAt := some t } ∈ markHistoryRead store a b t) ∧
    (∀ m, m ∈ store → m.sender ≠ b ∨ m.receiver ≠ a ∨ m.read = true →
      m ∈ markHistoryRead store a b t) ∧
    (markHistoryRead store a b t).length = store.length := by
  refine ⟨?_, ?_, ?_, ?_, ?_⟩
  · intro m
    rw [getHistory, List.mem_insertionSort, List.mem_filter]
    simp [inConversation]
  · exact List.sorted_insertionSort msgLe _
  · intro m hm hs hr hread
    have : ({ m with read := true, readAt := some t } : Message) =
        (fun m => if m.sender = b ∧ m.receiver = a ∧ m.read = false then
          { m with read := true, readAt := some t } else m) m := by
      simp [hs, hr, hread]
    rw [this]
    exact List.mem_map_of_mem _ hm
  · intro m hm hcond
    have : m = (fun m => if m.sender = b ∧ m.receiver = a ∧ m.read = false then
        { m with read := true, readAt := some t } else m) m := by
      rcases hcond with h | h | h <;> simp [h]
    rw [markHistoryRead]
    exact this ▸ List.mem_map_of_mem _ hm
  · exact List.length_map store _

/-- Concrete witness for C5: in a two-message store the history of the pair
contains the matching message, and pulling history as user a marks the
unread message from b as read while leaving the message a sent unchanged. -/
theorem C5_history_and_read_witness :
    ((⟨1, "b", "a", "hi", false, none, 5⟩ : Message) ∈
      getHistory [⟨1, "b", "a", "hi", false, none, 5⟩,
        ⟨2, "a", "b", "yo", false, none, 6⟩] "a" "b") ∧
    ((⟨1, "b", "a", "hi", true, some 9, 5⟩ : Message) ∈
      markHistoryRead [⟨1, "b", "a", "hi", false, none, 5⟩,
        ⟨2, "a", "b", "yo", false, none, 6⟩] "a" "b" 9) ∧
    ((⟨2, "a", "b", "yo", false, none, 6⟩ : Message) ∈
      markHistoryRead [⟨1, "b", "a", "hi", false, none, 5⟩,
        ⟨2, "a", "b", "yo", false, none, 6⟩] "a" "b" 9) :=
  ⟨((C5_history_and_read [⟨1, "b", "a", "hi", false, none, 5⟩,
      ⟨2, "a", "b", "yo", false, none, 6⟩] "a" "b" 9).1
      ⟨1, "b", "a", "hi", false, none, 5⟩).mpr ⟨by decide, Or.inr ⟨rfl, rfl⟩⟩,
    (C5_history_and_read [⟨1, "b", "a", "hi", false, none, 5⟩,
      ⟨2, "a", "b", "yo", false, none, 6⟩] "a" "b" 9).2.2.1
      ⟨1, "b", "a", "hi", false, none, 5⟩ (by decide) rfl rfl rfl,
    (C5_history_and_read [⟨1, "b", "a", "hi", false, none, 5⟩,
      ⟨2, "a", "b", "yo", false, none, 6⟩] "a" "b" 9).2.2.2.1
      ⟨2, "a", "b", "yo", false, none, 6⟩ (by decide) (Or.inl (by decide))⟩

/-- The in-memory presence registry `connectedUsers` (server.js) is a JS
Map from user id to socket id, modelled as an insertion-ordered association
list. `connectedUsers.set(userId, socket.id)`: overwrite in place when the
key exists (a Map keeps the original position), else append. -/
def registerConn : List (String × String) → String → String → List (String × String)
  | [], u, s => [(u, s)]
  | p :: t, u, s => if p.1 = u then (u, s) :: t else p :: registerConn t u s

/-- `connectedUsers.get(userId)`: first entry with the key, if any. -/
def resolveConn : List (String × String) → String → Option String
  | [], _ => none
  | p :: t, u => if p.1 = u then some p.2 else resolveConn t u

/-- The disconnect handler: iterate the entries in insertion order, delete
the first whose socket id matches, then `break`. -/
def disconnectConn : List (String × String) → String → List (String × String)
  | [], _ => []
  | p :: t, s => if p.2 = s then t else p :: disconnectConn t s

theorem resolveConn_registerConn_self (m : List (String × String))
    (u s : String) : resolveConn (registerConn m u s) u = some s := by
  induction m with
  | nil => simp [registerConn, resolveConn]
  | cons p t ih =>
    by_cases hp : p.1 = u <;> simp [registerConn, resolveConn, hp, ih]

theorem resolveConn_registerConn_other (m : List (String × String))
    (u u2 s : String) (h : u ≠ u2) :
    resolveConn (registerConn m u2 s) u = resolveConn m u := by
  induction m with
  | nil => simp [registerConn, resolveConn, Ne.symm h]
  | cons p t ih =>
    by_cases hp : p.1 = u2
    · have hpu : ¬ p.1 = u := fun hh => h (hh.symm.trans hp)
      simp only [registerConn, if_pos hp, resolveConn]
      rw [if_neg (fun hh : u2 = u => h hh.symm), if_neg hpu]
    · by_cases hp2 : p.1 = u
      · simp only [registerConn, if_neg hp, resolveConn, if_pos hp2]
      · simp only [registerConn, if_neg hp, resolveConn, if_neg hp2]
        exact ih

theorem resolveConn_disconnectConn_of_ne (m : List (String × String))
    (u c s : String) (h : resolveConn m u = some c) (hs : s ≠ c) :
    resolveConn (disconnectConn m s) u = some c := by
  induction m with
  | nil => simp [resolveConn] at h
  | cons p t ih =>
    by_cases hp2 : p.2 = s
    · rw [disconnectConn]
      rw [if_pos hp2]
      by_cases hp1 : p.1 = u
      · rw [resolveConn, if_pos hp1] at h
        have : p.2 = c := Option.some.inj h
        exact absurd (hp2 ▸ this) hs
      · rw [resolveConn, if_neg hp1] at h
        exact h
    · rw [disconnectConn]
      rw [if_neg hp2]
      by_cases hp1 : p.1 = u
      · rw [resolveConn, if_pos hp1] at h ⊢
        exact h
      · rw [resolveConn, if_neg hp1] at h ⊢
        exact ih h

theorem resolveConn_eq_none_of_not_key (m : List (String × String))
    (u : String) (h : u ∉ m.map Prod.fst) : resolveConn m u = none := by
  induction m with
  | nil => rfl
  | cons p t ih =>
    simp only [List.map_cons, List.mem_cons, not_or] at h
    rw [resolveConn, if_neg (fun hp => h.1 hp.symm)]
    exact ih h.2

theorem resolveConn_disconnectConn_self (m : List (String × String))
    (u c : String) (hnd : (m.map Prod.fst).Nodup)
    (h : resolveConn m u = some c) (huniq : ∀ p ∈ m, p.2 = c → p.1 = u) :
    resolveConn (disconnectConn m c) u = none := by
  induction m with
  | nil => simp [resolveConn] at h
  | cons p t ih =>
    simp only [List.map_cons, List.nodup_cons] at hnd
    by_cases hp2 : p.2 = c
    · rw [disconnectConn, if_pos hp2]
      have hp1 : p.1 = u := huniq p (List.mem_cons_self p t) hp2
      exact resolveConn_eq_none_of_not_key t u (hp1 ▸ hnd.1)
    · rw [disconnectConn, if_neg hp2]
      by_cases hp1 : p.1 = u
      · rw [resolveConn, if_pos hp1] at h
        exact absurd (Option.some.inj h) hp2
      · rw [resolveConn, if_neg hp1]
        rw [resolveConn, if_neg hp1] at h
        exact ih hnd.2 h (fun q hq => huniq q (List.mem_cons_of_mem p hq))

/-- Claim C4 counterexample: when two users u1 and u2 register the same
connection s9 (in that order), the disconnect of s9 removes only u1
because the handler breaks after the first matching entry; resolve(u2)
still returns s9 rather than absent, contradicting the claim that a
disconnect of C leaves resolve(U) absent. -/
theorem C4_disconnect_leaves_shared_socket :
    resolveConn (disconnectConn
      (registerConn (registerConn [] "u1" "s9") "u2" "s9") "s9") "u2" =
      some "s9" ∧
    some "s9" ≠ (none : Option String) := by decide

/-- Claim C4 (amended): after register(U, C), resolve(U) returns C; it is
unchanged by registrations of other users and by disconnects of sockets
other than C; and a disconnect of C makes resolve(U) absent provided no
other user is bound to C (the registry has unique keys, which registration
from empty maintains). Without that proviso the disconnect removes only
the earliest entry bound to C. -/
theorem C4_presence_registry (m : List (String × String)) (u u2 c c2 s : String) :
    resolveConn (registerConn m u c) u = some c ∧
    (u ≠ u2 → resolveConn (registerConn m u2 c2) u = resolveConn m u) ∧
    (resolveConn m u = some c → s ≠ c →
      resolveConn (disconnectConn m s) u = resolveConn m u) ∧
    ((m.map Prod.fst).Nodup → resolveConn m u = some c →
      (∀ p ∈ m, p.2 = c → p.1 = u) →
      resolveConn (disconnectConn m c) u = none) := by
  refine ⟨resolveConn_registerConn_self m u c,
    fun h => resolveConn_registerConn_other m u u2 c2 h,
    fun h hs => ?_,
    fun hnd h huniq => resolveConn_disconnectConn_self m u c hnd h huniq⟩
  rw [h]
  exact resolveConn_disconnectConn_of_ne m u c s h hs

/-- Concrete witness for the amended C4: with the single registration
("u1", "s9") the disconnect of s9 makes u1 unresolvable. -/
theorem C4_presence_registry_witness :
    resolveConn (disconnectConn [("u1", "s9")] "s9") "u1" = none :=
  (C4_presence_registry [("u1", "s9")] "u1" "x" "s9" "x" "x").2.2.2
    (by decide) (by decide) (by decide)

/-- Candidate user as read by GET /api/users/recommendations: id, the two
event-reference lists, and the active flag used by the fallback query. -/
structure RecUser where
  id : Nat
  savedEvents : List Nat
  eventsAttending : List Nat
  isActive : Bool
deriving DecidableEq

/-- Group as read by the recommendation route: id and member list. -/
structure RecGroup where
  id : Nat
  members : List Nat
deriving DecidableEq

/-- `userEventIds = [...savedEventIds, ...attendingEventIds]`. -/
def userEvents (me : RecUser) : List Nat :=
  me.savedEvents ++ me.eventsAttending

/-- The `$or` of the shared-events query: the candidate has some saved or
attending event among the requesting user's event ids. -/
def sharesEvent (myEvents : List Nat) (u : RecUser) : Bool :=
  decide (∃ e, e ∈ u.savedEvents ∧ e ∈ myEvents) ||
    decide (∃ e, e ∈ u.eventsAttending ∧ e ∈ myEvents)

/-- Selection predicate of the shared-events query: not the requester, and
sharing at least one event. -/
def eventMatch (me : RecUser) (u : RecUser) : Bool :=
  decide (u.id ≠ me.id) && sharesEvent (userEvents me) u

/-- `recommendedUsers`: queried only when the user has events
(`userEventIds.length > 0`), with `limit(20)`. -/
def eventCandidates (users : List RecUser) (me : RecUser) : List RecUser :=
  if (userEvents me).isEmpty then []
  else (users.filter (eventMatch me)).take 20

/-- `Group.find({members: req.user.id})`: the groups the requester is in. -/
def userGroups (groups : List RecGroup) (me : RecUser) : List RecGroup :=
  groups.filter (fun g => decide (me.id ∈ g.members))

/-- The random-active-users fallback, `limit(10)`. -/
def fallbackUsers (users : List RecUser) (me : RecUser) : List RecUser :=
  (users.filter (fun u => decide (u.id ≠ me.id) && u.isActive)).take 10

/-- One step of the `userScores` Map: create the entry with score 0 when
absent, then add the weight (a Map preserves insertion order and updates in
place). -/
def addScore : List (Nat × Nat) → Nat → Nat → List (Nat × Nat)
  | [], uid, w => [(uid, w)]
  | p :: t, uid, w => if p.1 = uid then (p.1, p.2 + w) :: t else p :: addScore t uid w

/-- The scoring pass of GET /api/users/recommendations: weight 1 for each
entry of `recommendedUsers` (each candidate occurs there at most once, as a
query result), then weight 2 for each occurrence of a member in each of the
requesting user's groups (the populate-match drops the requester). The
fallback pool replaces the event candidates only when both the event
candidates and the group list are empty. -/
def computeScores (users : List RecUser) (groups : List RecGroup)
    (me : RecUser) : List (Nat × Nat) :=
  let ec := eventCandidates users me
  let gs := userGroups groups me
  let base := if ec.isEmpty && gs.isEmpty then fallbackUsers users me else ec
  let s1 := base.foldl (fun s u => addScore s u.id 1) []
  gs.foldl (fun s g =>
    (g.members.filter (fun x => decide (x ≠ me.id))).foldl
      (fun s x => addScore s x 2) s) s1

/-- Score of a candidate in the `userScores` Map (0 when absent). -/
def scoreOf : List (Nat × Nat) → Nat → Nat
  | [], _ => 0
  | p :: t, uid => if p.1 = uid then p.2 else scoreOf t uid

/-- The `sort((a, b) => b.score - a.score)` order: descending score. -/
def scoreGe (p q : Nat × Nat) : Prop :=
  q.2 ≤ p.2

instance : DecidableRel scoreGe :=
  fun p q => Nat.decLe q.2 p.2

instance : IsTotal (Nat × Nat) scoreGe :=
  ⟨fun p q => Nat.le_total q.2 p.2⟩

instance : IsTrans (Nat × Nat) scoreGe :=
  ⟨fun _ _ _ h1 h2 => Nat.le_trans h2 h1⟩

/-- Final response of the recommendation route: sort by score descending,
`slice(0, 10)`, keep the user (here: the user id). -/
def recommendations (users : List RecUser) (groups : List RecGroup)
    (me : RecUser) : List Nat :=
  ((List.insertionSort scoreGe (computeScores users groups me)).take 10).map
    Prod.fst

/-- Number of groups shared by the requester and the candidate. -/
def sharedGroupCount (groups : List RecGroup) (me : RecUser) (uid : Nat) : Nat :=
  ((userGroups groups me).filter (fun g => decide (uid ∈ g.members))).length

/-- Number of the requesting user's event ids also referenced by the
candidate. -/
def sharedEventCount (me other : RecUser) : Nat :=
  ((userEvents me).filter (fun e => decide (e ∈ userEvents other))).length

theorem scoreOf_addScore_self (s : List (Nat × Nat)) (uid w : Nat) :
    scoreOf (addScore s uid w) uid = scoreOf s uid + w := by
  induction s with
  | nil => simp [addScore, scoreOf]
  | cons p t ih =>
    by_cases hp : p.1 = uid
    · simp [addScore, scoreOf, hp]
    · simp only [addScore, if_neg hp, scoreOf, if_neg hp]
      exact ih

theorem scoreOf_addScore_ne (s : List (Nat × Nat)) (uid w v : Nat)
    (h : v ≠ uid) : scoreOf (addScore s uid w) v = scoreOf s v := by
  induction s with
  | nil => simp [addScore, scoreOf, Ne.symm h]
  | cons p t ih =>
    by_cases hp : p.1 = uid
    · have hpv : ¬ p.1 = v := fun hh => h (hh.symm.trans hp)
      simp only [addScore, if_pos hp, scoreOf, if_neg hpv]
    · simp only [addScore, if_neg hp, scoreOf]
      by_cases hpv : p.1 = v
      · simp [hpv]
      · simp only [if_neg hpv]
        exact ih

theorem scoreOf_foldl_addScore (L : List Nat) (w : Nat)
    (s : List (Nat × Nat)) (v : Nat) :
    scoreOf (L.foldl (fun s x => addScore s x w) s) v =
      scoreOf s v + w * L.count v := by
  induction L generalizing s with
  | nil => simp
  | cons x t ih =>
    rw [List.foldl_cons, ih]
    by_cases hx : x = v
    · subst hx
      rw [scoreOf_addScore_self, List.count_cons]
      simp
      ring
    · rw [scoreOf_addScore_ne s x w v (Ne.symm hx), List.count_cons]
      simp [hx]

theorem scoreOf_foldl_groups (gs : List RecGroup) (meId : Nat)
    (s : List (Nat × Nat)) (v : Nat) :
    scoreOf (gs.foldl (fun s g =>
        (g.members.filter (fun x => decide (x ≠ meId))).foldl
          (fun s x => addScore s x 2) s) s) v =
      scoreOf s v +
        2 * (gs.map (fun g =>
          (g.members.filter (fun x => decide (x ≠ meId))).count v)).sum := by
  induction gs generalizing s with
  | nil => simp
  | cons g t ih =>
    rw [List.foldl_cons, ih, scoreOf_foldl_addScore, List.map_cons,
      List.sum_cons]
    ring

theorem count_id_filter (users : List RecUser) (c : RecUser)
    (q : RecUser → Bool) (hids : (users.map RecUser.id).Nodup)
    (hc : c ∈ users) :
    ((users.filter q).map RecUser.id).count c.id =
      if q c = true then 1 else 0 := by
  have hsub : ((users.filter q).map RecUser.id).Sublist
      (users.map RecUser.id) :=
    List.Sublist.map RecUser.id (List.filter_sublist users)
  have hnd : ((users.filter q).map RecUser.id).Nodup :=
    List.Nodup.sublist hsub hids
  by_cases hq : q c = true
  · have hmem : c.id ∈ (users.filter q).map RecUser.id :=
      List.mem_map_of_mem _ (List.mem_filter.mpr ⟨hc, hq⟩)
    rw [if_pos hq]
    exact List.count_eq_one_of_mem hnd hmem
  · rw [if_neg hq, List.count_eq_zero]
    intro hmem
    rcases List.mem_map.mp hmem with ⟨u, hu, hid⟩
    have hu2 := List.mem_filter.mp hu
    have heq : u = c := List.inj_on_of_nodup_map hids hu2.1 hc hid
    rw [heq] at hu2
    exact hq hu2.2

theorem sum_ite_mem_groups (L : List RecGroup) (v : Nat) :
    (L.map (fun g => if v ∈ g.members then 1 else 0)).sum =
      (L.filter (fun g => decide (v ∈ g.members))).length := by
  induction L with
  | nil => rfl
  | cons g t ih => by_cases h : v ∈ g.members <;> simp [h, ih, Nat.add_comm]

theorem group_members_sum (groups : List RecGroup) (me : RecUser) (v : Nat)
    (hgm : ∀ g ∈ groups, g.members.Nodup) (hv : v ≠ me.id) :
    ((userGroups groups me).map (fun g =>
        (g.members.filter (fun x => decide (x ≠ me.id))).count v)).sum =
      sharedGroupCount groups me v := by
  unfold sharedGroupCount
  have hcongr : ∀ g ∈ userGroups groups me,
      (g.members.filter (fun x => decide (x ≠ me.id))).count v =
        if v ∈ g.members then 1 else 0 := by
    intro g hg
    have hgmem : g ∈ groups := (List.mem_filter.mp hg).1
    have hnd : g.members.Nodup := hgm g hgmem
    rw [List.count_filter (by simp [hv])]
    by_cases hvm : v ∈ g.members
    · rw [if_pos hvm]
      exact List.count_eq_one_of_mem hnd hvm
    · rw [if_neg hvm]
      exact List.count_eq_zero.mpr hvm
  rw [List.map_congr_left hcongr, sum_ite_mem_groups]

/-- Claim C7 counterexample: a candidate sharing two events and no group
with the requester receives score 1, not 1 per shared event (which would be
2): the shared-events query returns each candidate once regardless of how
many events overlap, so its weight is binary. -/
theorem C7_event_weight_counterexample :
    sharedEventCount ⟨0, [1, 2], [], true⟩ ⟨5, [1, 2], [], true⟩ = 2 ∧
    sharedGroupCount [] ⟨0, [1, 2], [], true⟩ 5 = 0 ∧
    scoreOf (computeScores [⟨0, [1, 2], [], true⟩, ⟨5, [1, 2], [], true⟩]
      [] ⟨0, [1, 2], [], true⟩) 5 = 1 ∧
    scoreOf (computeScores [⟨0, [1, 2], [], true⟩, ⟨5, [1, 2], [], true⟩]
        [] ⟨0, [1, 2], [], true⟩) 5 ≠
      1 * sharedEventCount ⟨0, [1, 2], [], true⟩ ⟨5, [1, 2], [], true⟩ +
        2 * sharedGroupCount [] ⟨0, [1, 2], [], true⟩ 5 := by
  decide

/-- Claim C7 (amended): outside the no-overlap fallback, a candidate scores
1 when sharing at least one saved/attending event with the requester (a
binary weight: the shared-events query lists each candidate once) plus 2
for each shared group membership; the result is sorted descending by score
and truncated to at most 10 entries. The Nodup hypotheses state that
database ids are distinct and member arrays are sets; the length bound says
the 20-candidate query limit is not hit. -/
theorem C7_recommendation_scoring (users : List RecUser)
    (groups : List RecGroup) (me c : RecUser)
    (hids : (users.map RecUser.id).Nodup)
    (hgm : ∀ g ∈ groups, g.members.Nodup)
    (hc : c ∈ users) (hcm : c.id ≠ me.id)
    (hlen : (users.filter (eventMatch me)).length ≤ 20)
    (hnf : ((eventCandidates users me).isEmpty &&
      (userGroups groups me).isEmpty) = false) :
    scoreOf (computeScores users groups me) c.id =
      (if sharesEvent (userEvents me) c = true then 1 else 0) +
        2 * sharedGroupCount groups me c.id ∧
    List.Sorted scoreGe (List.insertionSort scoreGe
      (computeScores users groups me)) ∧
    (recommendations users groups me).length ≤ 10 := by
  refine ⟨?_, List.sorted_insertionSort scoreGe _, ?_⟩
  · have hbase : computeScores users groups me =
        (userGroups groups me).foldl (fun s g =>
          (g.members.filter (fun x => decide (x ≠ me.id))).foldl
            (fun s x => addScore s x 2) s)
          ((eventCandidates users me).foldl (fun s u => addScore s u.id 1) []) := by
      simp only [computeScores, hnf, Bool.false_eq_true, if_false]
    rw [hbase, scoreOf_foldl_groups,
      ← List.foldl_map RecUser.id (fun s x => addScore s x 1)
        (eventCandidates users me) [],
      scoreOf_foldl_addScore, group_members_sum groups me c.id hgm hcm]
    by_cases hE : (userEvents me).isEmpty = true
    · have hec : eventCandidates users me = [] := by
        simp [eventCandidates, hE]
      have hse : sharesEvent (userEvents me) c = false := by
        have hnil : userEvents me = [] := List.isEmpty_iff.mp hE
        simp [sharesEvent, hnil]
      rw [hec, hse]
      simp [scoreOf]
    · have hec : eventCandidates users me = users.filter (eventMatch me) := by
        simp only [eventCandidates, hE, Bool.false_eq_true, if_false]
        exact List.take_of_length_le hlen
      rw [hec, count_id_filter users c (eventMatch me) hids hc]
      have hq : eventMatch me c = sharesEvent (userEvents me) c := by
        simp [eventMatch, hcm]
      rw [hq]
      simp [scoreOf]
  · rw [recommendations]
    rw [List.length_map, List.length_take]
    omega

/-- Concrete witness for the amended C7: a candidate sharing one event and
one group with the requester scores 3, matching the 1 + 2 example. -/
theorem C7_recommendation_scoring_witness :
    scoreOf (computeScores [⟨0, [1], [], true⟩, ⟨5, [1], [], true⟩]
      [⟨100, [0, 5]⟩] ⟨0, [1], [], true⟩) 5 = 3 := by
  rw [(C7_recommendation_scoring [⟨0, [1], [], true⟩, ⟨5, [1], [], true⟩]
    [⟨100, [0, 5]⟩] ⟨0, [1], [], true⟩ ⟨5, [1], [], true⟩ (by decide)
    (by decide) (by decide) (by decide) (by decide) (by decide)).1]
  decide

/-- User record (models/User.js) including the credential hash. -/
structure UserRecord where
  id : Nat
  name : String
  email : String
  password : String
  avatar : String
  bio : String
  eventsCreated : List Nat
  eventsAttending : List Nat
  savedEvents : List Nat
  followers : List Nat
  following : List Nat
  isActive : Bool
  createdAt : Nat
deriving DecidableEq

/-- A serialized field value of a user payload. -/
inductive FieldVal where
  | str (s : String)
  | num (n : Nat)
  | ids (l : List Nat)
  | boolean (b : Bool)
deriving DecidableEq

/-- `userSchema.methods.toPublicProfile` (models/User.js): the exact field
list of the projection used by register, login, me, updateprofile and
user/:id responses. The password field is not among them. -/
def toPublicProfile (u : UserRecord) : List (String × FieldVal) :=
  [("_id", FieldVal.num u.id), ("id", FieldVal.num u.id),
    ("name", FieldVal.str u.name), ("email", FieldVal.str u.email),
    ("avatar", FieldVal.str u.avatar), ("bio", FieldVal.str u.bio),
    ("eventsCreated", FieldVal.ids u.eventsCreated),
    ("eventsAttending", FieldVal.ids u.eventsAttending),
    ("savedEvents", FieldVal.ids u.savedEvents),
    ("followers", FieldVal.ids u.followers),
    ("following", FieldVal.ids u.following),
    ("createdAt", FieldVal.num u.createdAt)]

/-- All field paths of the user schema. -/
def userFieldNames : List String :=
  ["_id", "name", "email", "password", "avatar", "bio", "eventsCreated",
    "eventsAttending", "savedEvents", "followers", "following", "isActive",
    "createdAt", "updatedAt"]

/-- Field names produced by an inclusive Mongo `select`/populate-select
string: the listed paths plus `_id`. -/
def selectFields (fields : List String) : List String :=
  "_id" :: fields

/-- Field names produced by an exclusive select such as `-password`, and by
the schema default (the password path carries `select: false`). -/
def excludeFields (excluded : List String) : List String :=
  userFieldNames.filter (fun f => decide (f ∉ excluded))

/-- Every user projection the routes serialize into an external response:
`toPublicProfile` (auth routes), the populate selects `name avatar` (event
creator and attendee lists, message parties), `name avatar email` (single
event creator), `name email avatar bio` (chat user search, user search,
recommendations), `name email avatar bio createdAt` (user profile route),
`name description category memberCount` has no user fields, and the
`-password` / schema-default projections (upload-avatar response, the
authentication middleware). -/
def responseUserProjections : List (List String) :=
  [selectFields ["name", "avatar"],
    selectFields ["name", "avatar", "email"],
    selectFields ["name", "email", "avatar", "bio"],
    selectFields ["name", "email", "avatar", "bio", "createdAt"],
    excludeFields ["password"]]

/-- Claim C9: no serialized user payload contains the password field: the
public-profile projection emits a fixed field list without it, and every
select-based projection used in a response excludes it. -/
theorem C9_password_never_serialized :
    (∀ u : UserRecord, "password" ∉ (toPublicProfile u).map Prod.fst) ∧
    (∀ proj, proj ∈ responseUserProjections → "password" ∉ proj) := by
  constructor
  · intro u
    have h : (toPublicProfile u).map Prod.fst =
        ["_id", "id", "name", "email", "avatar", "bio", "eventsCreated",
          "eventsAttending", "savedEvents", "followers", "following",
          "createdAt"] := rfl
    rw [h]
    decide
  · decide

/-- Concrete witness for C9: a concrete user record's public profile and
the chat-search projection both lack the password field. -/
theorem C9_password_never_serialized_witness :
    "password" ∉ (toPublicProfile
      ⟨1, "n", "e", "hash", "a", "b", [], [], [], [], [], true, 0⟩).map
        Prod.fst ∧
    "password" ∉ selectFields ["name", "email", "avatar", "bio"] :=
  ⟨C9_password_never_serialized.1
      ⟨1, "n", "e", "hash", "a", "b", [], [], [], [], [], true, 0⟩,
    C9_password_never_serialized.2 (selectFields ["name", "email", "avatar", "bio"])
      (by decide)⟩

/-- Group document (models/Group.js): creator, admin and member lists with
the denormalized member counter. -/
structure GroupDoc where
  creator : Nat
  admins : List Nat
  members : List Nat
  memberCount : Nat
deriving DecidableEq

/-- The `pre("save")` hook of the group schema: every save recomputes
`memberCount` from the member list. -/
def saveGroup (g : GroupDoc) : GroupDoc :=
  { g with memberCount := g.members.length }

/-- POST /api/groups/:id/join (routes/groupRoutes.js): reject when already a
member, else push the requester and save (running the hook). -/
def joinGroup (g : GroupDoc) (uid : Nat) : Option GroupDoc :=
  if uid ∈ g.members then none
  else some (saveGroup { g with members := g.members ++ [uid] })

/-- POST /api/groups/:id/leave (routes/groupRoutes.js): the creator cannot
leave; otherwise filter the requester out of members and admins and save
(running the hook). -/
def leaveGroup (g : GroupDoc) (uid : Nat) : Option GroupDoc :=
  if g.creator = uid then none
  else some (saveGroup { g with
    members := g.members.filter (fun m => decide (m ≠ uid))
    admins := g.admins.filter (fun a => decide (a ≠ uid)) })

/-- Claim C10: after every save the denormalized memberCount equals the
member-list length, because the pre-save hook recomputes it; in particular
a successful join leaves the count consistent (one higher than before) and
a successful leave leaves it consistent. -/
theorem C10_member_count_consistent (g g2 : GroupDoc) (uid : Nat) :
    (saveGroup g).memberCount = (saveGroup g).members.length ∧
    (joinGroup g uid = some g2 →
      g2.memberCount = g2.members.length ∧
      g2.memberCount = g.members.length + 1) ∧
    (leaveGroup g uid = some g2 → g2.memberCount = g2.members.length) := by
  refine ⟨rfl, ?_, ?_⟩
  · intro h
    rw [joinGroup] at h
    by_cases hm : uid ∈ g.members
    · rw [if_pos hm] at h
      exact absurd h (by simp)
    · rw [if_neg hm] at h
      have := Option.some.inj h
      rw [← this]
      simp [saveGroup]
  · intro h
    rw [leaveGroup] at h
    by_cases hcrea : g.creator = uid
    · rw [if_pos hcrea] at h
      exact absurd h (by simp)
    · rw [if_neg hcrea] at h
      have := Option.some.inj h
      rw [← this]
      rfl

/-- Concrete witness for C10: user 2 joining a one-member group yields a
consistent count of 2, and user 1 leaving it yields a consistent count. -/
theorem C10_member_count_consistent_witness :
    (GroupDoc.mk 0 [] [1, 2] 2).memberCount =
      (GroupDoc.mk 0 [] [1, 2] 2).members.length ∧
    (GroupDoc.mk 0 [] [1, 2] 2).memberCount =
      (GroupDoc.mk 0 [] [1] 1).members.length + 1 :=
  (C10_member_count_consistent ⟨0, [], [1], 1⟩ ⟨0, [], [1, 2], 2⟩ 2).2.1
    (by decide)
